import Mathlib

/-!
Shallow embedding of the configuration → entry-detection → validation → build
pipeline of the `github-action-builder` repository, together with theorems
settling the specification claims about it.

Modelling conventions:
* The filesystem is a total map from absolute path strings to optional raw
  file contents (`Fs`); `existsSync` becomes `existsF`.
* `node:path`'s `resolve(cwd, p)` is modelled as string concatenation with a
  separator (`resolveP`); the claims never depend on absolute-path
  normalisation.
* The process environment is a map from variable names to optional strings.
* The external YAML parser is an abstract parameter
  (`parseYaml : String → Except String Yaml`); the repository treats it as an
  opaque collaborator.
* Effect's typed failure channel becomes `Except`.
-/

namespace GithubActionBuilder

/-- Filesystem model: maps an absolute path to the raw contents of the file
there, or `none` when no file exists at that path. -/
def Fs : Type := String → Option String

/-- Model of `existsSync`. -/
def existsF (fs : Fs) (path : String) : Bool := (fs path).isSome

/-- Model of `resolve(cwd, p)` from `node:path`. -/
def resolveP (cwd p : String) : String := cwd ++ "/" ++ p

/-- Process-environment model (`process.env`). -/
def EnvVars : Type := String → Option String

-- =============================================================================
-- Configuration schema (src/schemas/config.ts)
-- =============================================================================

/-- `EsTarget = Schema.Literal("es2020", ..., "es2024")`. -/
inductive EsTarget
  | es2020 | es2021 | es2022 | es2023 | es2024
deriving Repr, DecidableEq

/-- Resolved `entries` section (`EntriesSchema`): `main` has the schema default
`"src/main.ts"`, `pre`/`post` are genuinely optional. -/
structure Entries where
  main : String
  pre : Option String
  post : Option String
deriving Repr, DecidableEq

/-- Resolved `build` section (`BuildOptionsSchema`), all defaults applied. -/
structure BuildOptions where
  minify : Bool
  target : EsTarget
  sourceMap : Bool
  externals : List String
  quiet : Bool
deriving Repr, DecidableEq

/-- Resolved `validation` section (`ValidationOptionsSchema`). -/
structure ValidationOptions where
  requireActionYml : Bool
  maxBundleSize : Option String
  strict : Option Bool
deriving Repr, DecidableEq

/-- Fully resolved configuration (`ConfigSchema`). -/
structure Config where
  entries : Entries
  build : BuildOptions
  validation : ValidationOptions
deriving Repr, DecidableEq

/-- User-supplied `entries` section of `ConfigInputSchema` (all optional). -/
structure EntriesInput where
  main : Option String
  pre : Option String
  post : Option String
deriving Repr, DecidableEq

/-- User-supplied `build` section of `ConfigInputSchema` (all optional). -/
structure BuildInput where
  minify : Option Bool
  target : Option EsTarget
  sourceMap : Option Bool
  externals : Option (List String)
  quiet : Option Bool
deriving Repr, DecidableEq

/-- User-supplied `validation` section of `ConfigInputSchema` (all optional). -/
structure ValidationInput where
  requireActionYml : Option Bool
  maxBundleSize : Option String
  strict : Option Bool
deriving Repr, DecidableEq

/-- User-supplied configuration input (`ConfigInputSchema`): every section
optional. -/
structure ConfigInput where
  entries : Option EntriesInput
  build : Option BuildInput
  validation : Option ValidationInput
deriving Repr, DecidableEq

/-- `defineConfig`: applies the schema defaults to a partial input.  The source
decodes `{entries: config.entries ?? {}, build: config.build ?? {}, validation:
config.validation ?? {}}` through `ConfigSchema`; `Schema.optionalWith`
defaults become `Option.getD` and plain `Schema.optional` fields pass through.
On a well-typed input the decode cannot fail, so the model is total. -/
def defineConfig (config : ConfigInput) : Config :=
  let e := config.entries.getD ⟨none, none, none⟩
  let b := config.build.getD ⟨none, none, none, none, none⟩
  let v := config.validation.getD ⟨none, none, none⟩
  { entries :=
      { main := e.main.getD "src/main.ts"
        pre := e.pre
        post := e.post }
    build :=
      { minify := b.minify.getD true
        target := b.target.getD .es2022
        sourceMap := b.sourceMap.getD false
        externals := b.externals.getD []
        quiet := b.quiet.getD false }
    validation :=
      { requireActionYml := v.requireActionYml.getD true
        maxBundleSize := v.maxBundleSize
        strict := v.strict } }

/-- `ConfigService.resolve` (config-live.ts line 131):
`Effect.succeed(defineConfig(input))`. -/
def resolve (input : ConfigInput) : Config := defineConfig input

-- =============================================================================
-- Entry detection (src/services/config-live.ts)
-- =============================================================================

/-- Entry role: the `EntryTypeSchema` literal `"main" | "pre" | "post"`. -/
inductive EntryType
  | main | pre | post
deriving Repr, DecidableEq

/-- String name of an entry role, as used in output paths. -/
def EntryType.name : EntryType → String
  | .main => "main"
  | .pre => "pre"
  | .post => "post"

/-- The `DEFAULT_ENTRIES` constant. -/
def defaultEntryPath : EntryType → String
  | .main => "src/main.ts"
  | .pre => "src/pre.ts"
  | .post => "src/post.ts"

/-- A detected entry point (`DetectedEntrySchema`). -/
structure DetectedEntry where
  type : EntryType
  path : String
  output : String
deriving Repr, DecidableEq

/-- Result of entry detection (`DetectEntriesResultSchema`). -/
structure DetectEntriesResult where
  success : Bool
  entries : List DetectedEntry
deriving Repr, DecidableEq

/-- The `MainEntryMissing` tagged error. -/
structure MainEntryMissing where
  expectedPath : String
  cwd : String
deriving Repr, DecidableEq

/-- The optional `entries` argument of `detectEntries`. -/
structure EntriesArg where
  main : Option String
  pre : Option String
  post : Option String
deriving Repr, DecidableEq

/-- `detectOptionalEntry(cwd, type, explicitPath?)`: include the entry exactly
when its (override or default) file exists.  The source restricts `type` to
`"pre" | "post"`; callers here only pass those. -/
def detectOptionalEntry (fs : Fs) (cwd : String) (type : EntryType)
    (explicitPath : Option String) : Option DetectedEntry :=
  let defaultPath := defaultEntryPath type
  let entryPath := explicitPath.getD defaultPath
  let absolutePath := resolveP cwd entryPath
  if existsF fs absolutePath then
    some { type := type, path := absolutePath, output := "dist/" ++ type.name ++ ".js" }
  else
    none

/-- `ConfigService.detectEntries(cwd, entries?)`: the main entry is required
(its absence fails with `MainEntryMissing`), `pre`/`post` are appended exactly
when their files exist. -/
def detectEntries (fs : Fs) (cwd : String) (entries : EntriesArg) :
    Except MainEntryMissing DetectEntriesResult :=
  let mainPath := entries.main.getD (defaultEntryPath .main)
  let absoluteMainPath := resolveP cwd mainPath
  if existsF fs absoluteMainPath then
    let detected := [({ type := .main, path := absoluteMainPath, output := "dist/main.js" } : DetectedEntry)]
    let detected := detected ++ (detectOptionalEntry fs cwd .pre entries.pre).toList
    let detected := detected ++ (detectOptionalEntry fs cwd .post entries.post).toList
    .ok { success := true, entries := detected }
  else
    .error { expectedPath := mainPath, cwd := cwd }

-- =============================================================================
-- YAML value model
-- =============================================================================

/-- Parsed YAML value, as produced by the external `yaml` parser.  Scalars the
claims never exercise (numbers, timestamps) are representable as strings for
the purposes of this model; what matters to the pipeline is the
object/array/scalar/null distinction and string equality on field values. -/
inductive Yaml
  | null
  | bool (b : Bool)
  | str (s : String)
  | arr (items : List Yaml)
  | obj (fields : List (String × Yaml))

/-- JavaScript property access `t[key]` on a parsed tree: defined on objects,
`undefined` (here `none`) otherwise. -/
def Yaml.getField : Yaml → String → Option Yaml
  | .obj fields, key => fields.lookup key
  | _, _ => none

/-- JavaScript truthiness of a parsed YAML value. -/
def Yaml.truthy : Yaml → Bool
  | .null => false
  | .bool b => b
  | .str s => s != ""
  | .arr _ => true
  | .obj _ => true

/-- JavaScript `typeof v === "object"` (true for objects, arrays and `null`). -/
def Yaml.isObjType : Yaml → Bool
  | .null => true
  | .arr _ => true
  | .obj _ => true
  | _ => false

/-- Truthiness of the value found at `key`, with an absent key counting as
`undefined` (falsy). -/
def Yaml.fieldTruthy (t : Yaml) (key : String) : Bool :=
  match t.getField key with
  | some v => v.truthy
  | none => false

/-- `Object.entries` over a parsed object; empty for the value kinds of this
model that are not objects. -/
def Yaml.entriesOf : Yaml → List (String × Yaml)
  | .obj fields => fields
  | _ => []

-- =============================================================================
-- action.yml schema (src/schemas/action-yml.ts)
-- =============================================================================

/-- The `BrandingColor` literal list from the source schema. -/
def brandingColors : List String :=
  ["white", "black", "yellow", "blue", "green", "orange", "red", "purple", "gray-dark"]

/-- The `BrandingIcon` literal list (Feather icons) from the source schema. -/
def brandingIcons : List String :=
  ["activity", "airplay", "alert-circle", "alert-octagon", "alert-triangle",
   "align-center", "align-justify", "align-left", "align-right", "anchor",
   "aperture", "archive", "arrow-down-circle", "arrow-down-left",
   "arrow-down-right", "arrow-down", "arrow-left-circle", "arrow-left",
   "arrow-right-circle", "arrow-right", "arrow-up-circle", "arrow-up-left",
   "arrow-up-right", "arrow-up", "at-sign", "award", "bar-chart-2",
   "bar-chart", "battery-charging", "battery", "bell-off", "bell",
   "bluetooth", "bold", "book-open", "book", "bookmark", "box", "briefcase",
   "calendar", "camera-off", "camera", "cast", "check-circle",
   "check-square", "check", "chevron-down", "chevron-left", "chevron-right",
   "chevron-up", "chevrons-down", "chevrons-left", "chevrons-right",
   "chevrons-up", "circle", "clipboard", "clock", "cloud-drizzle",
   "cloud-lightning", "cloud-off", "cloud-rain", "cloud-snow", "cloud",
   "code", "command", "compass", "copy", "corner-down-left",
   "corner-down-right", "corner-left-down", "corner-left-up",
   "corner-right-down", "corner-right-up", "corner-up-left",
   "corner-up-right", "cpu", "credit-card", "crop", "crosshair", "database",
   "delete", "disc", "dollar-sign", "download-cloud", "download", "droplet",
   "edit-2", "edit-3", "edit", "external-link", "eye-off", "eye",
   "fast-forward", "feather", "file-minus", "file-plus", "file-text",
   "file", "film", "filter", "flag", "folder-minus", "folder-plus",
   "folder", "gift", "git-branch", "git-commit", "git-merge",
   "git-pull-request", "globe", "grid", "hard-drive", "hash", "headphones",
   "heart", "help-circle", "home", "image", "inbox", "info", "italic",
   "layers", "layout", "life-buoy", "link-2", "link", "list", "loader",
   "lock", "log-in", "log-out", "mail", "map-pin", "map", "maximize-2",
   "maximize", "menu", "message-circle", "message-square", "mic-off", "mic",
   "minimize-2", "minimize", "minus-circle", "minus-square", "minus",
   "monitor", "moon", "more-horizontal", "more-vertical", "move", "music",
   "navigation-2", "navigation", "octagon", "package", "paperclip",
   "pause-circle", "pause", "percent", "phone-call", "phone-forwarded",
   "phone-incoming", "phone-missed", "phone-off", "phone-outgoing", "phone",
   "pie-chart", "play-circle", "play", "plus-circle", "plus-square", "plus",
   "pocket", "power", "printer", "radio", "refresh-ccw", "refresh-cw",
   "repeat", "rewind", "rotate-ccw", "rotate-cw", "rss", "save", "scissors",
   "search", "send", "server", "settings", "share-2", "share", "shield-off",
   "shield", "shopping-bag", "shopping-cart", "shuffle", "sidebar",
   "skip-back", "skip-forward", "slash", "sliders", "smartphone", "speaker",
   "square", "star", "stop-circle", "sun", "sunrise", "sunset", "table",
   "tablet", "tag", "target", "terminal", "thermometer", "thumbs-down",
   "thumbs-up", "toggle-left", "toggle-right", "trash-2", "trash",
   "trending-down", "trending-up", "triangle", "truck", "tv", "type",
   "umbrella", "underline", "unlock", "upload-cloud", "upload",
   "user-check", "user-minus", "user-plus", "user-x", "user", "users",
   "video-off", "video", "voicemail", "volume-1", "volume-2", "volume-x",
   "volume", "watch", "wifi-off", "wifi", "wind", "x-circle", "x-square",
   "x", "zap-off", "zap", "zoom-in", "zoom-out"]

/-- Decoded `ActionInput` struct (`description` required). -/
structure ActionInput where
  description : String
  required : Option Bool
  default : Option String
  deprecationMessage : Option String
deriving Repr, DecidableEq

/-- Decoded `ActionOutput` struct (`description` required). -/
structure ActionOutput where
  description : String
deriving Repr, DecidableEq

/-- Decoded `Runs` struct.  The `using` field is the literal `"node24"`; the
decoder only succeeds with that value, so the field is omitted here (it would
always hold the same string).  `preIf`/`postIf` model the `pre-if`/`post-if`
keys. -/
structure Runs where
  main : String
  pre : Option String
  preIf : Option String
  post : Option String
  postIf : Option String
deriving Repr, DecidableEq

/-- Decoded `Branding` struct. -/
structure Branding where
  icon : Option String
  color : Option String
deriving Repr, DecidableEq

/-- Decoded `ActionYml` struct. -/
structure ActionYml where
  name : String
  description : String
  author : Option String
  inputs : Option (List (String × ActionInput))
  outputs : Option (List (String × ActionOutput))
  runs : Runs
  branding : Option Branding
deriving Repr, DecidableEq

/-- Decode a required string field, Effect-Schema style (missing key and wrong
type are both violations). -/
def reqString (t : Yaml) (key : String) : Except String String :=
  match t.getField key with
  | some (.str s) => .ok s
  | some _ => .error ("Expected string, actual value at key " ++ key)
  | none => .error ("is missing: " ++ key)

/-- Decode an optional string field: absent is fine, a present non-string is a
violation. -/
def optString (t : Yaml) (key : String) : Except String (Option String) :=
  match t.getField key with
  | some (.str s) => .ok (some s)
  | some _ => .error ("Expected string, actual value at key " ++ key)
  | none => .ok none

/-- Decode an optional boolean field. -/
def optBool (t : Yaml) (key : String) : Except String (Option Bool) :=
  match t.getField key with
  | some (.bool b) => .ok (some b)
  | some _ => .error ("Expected boolean, actual value at key " ++ key)
  | none => .ok none

/-- Decode an optional string field constrained to a literal list (used for
`branding.icon` and `branding.color`). -/
def optLiteralIn (t : Yaml) (key : String) (lits : List String) :
    Except String (Option String) :=
  match t.getField key with
  | some (.str s) =>
      if lits.contains s then .ok (some s)
      else .error ("Unexpected literal at key " ++ key)
  | some _ => .error ("Expected literal, actual value at key " ++ key)
  | none => .ok none

/-- Decode every value of a record field with `dec`, stopping at the first
violation (Effect's default `errors: "first"` behaviour). -/
def decodeRecordEntries (dec : Yaml → Except String α) :
    List (String × Yaml) → Except String (List (String × α))
  | [] => .ok []
  | (k, v) :: rest => do
      let a ← dec v
      let tail ← decodeRecordEntries dec rest
      .ok ((k, a) :: tail)

/-- Decode an optional `Schema.Record(String → ·)` field. -/
def optRecord (t : Yaml) (key : String) (dec : Yaml → Except String α) :
    Except String (Option (List (String × α))) :=
  match t.getField key with
  | none => .ok none
  | some (.obj fields) => (decodeRecordEntries dec fields).map some
  | some _ => .error ("Expected record, actual value at key " ++ key)

/-- Decode an optional struct-valued field. -/
def optField (t : Yaml) (key : String) (dec : Yaml → Except String α) :
    Except String (Option α) :=
  match t.getField key with
  | none => .ok none
  | some v => (dec v).map some

/-- Decode one `ActionInput` value. -/
def decodeActionInput (y : Yaml) : Except String ActionInput :=
  match y with
  | .obj _ => do
      let d ← reqString y "description"
      let r ← optBool y "required"
      let df ← optString y "default"
      let dep ← optString y "deprecationMessage"
      .ok ⟨d, r, df, dep⟩
  | _ => .error "Expected ActionInput object"

/-- Decode one `ActionOutput` value. -/
def decodeActionOutput (y : Yaml) : Except String ActionOutput :=
  match y with
  | .obj _ => do
      let d ← reqString y "description"
      .ok ⟨d⟩
  | _ => .error "Expected ActionOutput object"

/-- The `Schema.Literal("node24")` check on the `using` field: decoding
succeeds exactly when the field holds that one string. -/
def checkUsing (y : Yaml) : Except String Unit :=
  match y.getField "using" with
  | some (.str s) =>
      if s = "node24" then .ok ()
      else .error "runs.using must be node24"
  | some _ => .error "runs.using must be node24"
  | none => .error "is missing: runs.using"

/-- Decode the `runs` struct.  `using` must be exactly the string literal
`"node24"`; any other value (or a missing key) is a schema violation. -/
def decodeRuns (y : Yaml) : Except String Runs :=
  match y with
  | .obj _ => do
      let _ ← checkUsing y
      let main ← reqString y "main"
      let pre ← optString y "pre"
      let preIf ← optString y "pre-if"
      let post ← optString y "post"
      let postIf ← optString y "post-if"
      .ok ⟨main, pre, preIf, post, postIf⟩
  | _ => .error "Expected Runs object"

/-- Decode the `branding` struct. -/
def decodeBranding (y : Yaml) : Except String Branding :=
  match y with
  | .obj _ => do
      let icon ← optLiteralIn y "icon" brandingIcons
      let color ← optLiteralIn y "color" brandingColors
      .ok ⟨icon, color⟩
  | _ => .error "Expected Branding object"

/-- Decode a parsed tree against the `ActionYml` struct schema, in property
declaration order, stopping at the first violation. -/
def decodeActionYml (t : Yaml) : Except String ActionYml :=
  match t with
  | .obj _ => do
      let name ← reqString t "name"
      let description ← reqString t "description"
      let author ← optString t "author"
      let inputs ← optRecord t "inputs" decodeActionInput
      let outputs ← optRecord t "outputs" decodeActionOutput
      let runs ← (match t.getField "runs" with
        | some v => decodeRuns v
        | none => Except.error "is missing: runs")
      let branding ← optField t "branding" decodeBranding
      .ok ⟨name, description, author, inputs, outputs, runs, branding⟩
  | _ => .error "Expected ActionYml object"

-- =============================================================================
-- Validation service (src/services/validation-live.ts)
-- =============================================================================

/-- One formatted schema-error entry (`{path, message}`). -/
structure SchemaErrItem where
  path : String
  message : String
deriving Repr, DecidableEq

/-- The tagged errors `ActionYmlMissing{cwd}`, `ActionYmlSyntaxError{path,
message}` and `ActionYmlSchemaError{path, errors}`.  `ActionYmlMissing` is
constructed with the checked path as its `cwd` field, exactly as the source
does. -/
inductive ActionYmlError
  | missing (cwd : String)
  | malformed (path : String) (message : String)
  | schemaError (path : String) (errors : List SchemaErrItem)
deriving Repr, DecidableEq

/-- The `ValidationFailed` tagged error. -/
structure ValidationFailed where
  errorCount : Nat
  warningCount : Nat
  message : String
deriving Repr, DecidableEq

/-- A validation error item (`ValidationErrorSchema`). -/
structure ValidationErrorItem where
  code : String
  message : String
  file : Option String
  suggestion : Option String
deriving Repr, DecidableEq

/-- A validation warning (`ValidationWarningSchema`). -/
structure ValidationWarning where
  code : String
  message : String
  file : Option String
  suggestion : Option String
deriving Repr, DecidableEq

/-- A validation result (`ValidationResultSchema`). -/
structure ValidationResult where
  valid : Bool
  errors : List ValidationErrorItem
  warnings : List ValidationWarning
deriving Repr, DecidableEq

/-- Result of action.yml validation (`ActionYmlResultSchema`). -/
structure ActionYmlResult where
  valid : Bool
  content : Option ActionYml
  errors : List ValidationErrorItem
  warnings : List ValidationWarning
deriving Repr, DecidableEq

/-- Options accepted by `validate` (`ValidateOptionsSchema`). -/
structure ValidateOptions where
  cwd : Option String
  strict : Option Bool
deriving Repr, DecidableEq

/-- The abstract external YAML parser: raw text to parsed tree or a thrown
parse-error message. -/
def YamlParse : Type := String → Except String Yaml

/-- `isCI()`: true exactly when `CI` is `"true"` or `"1"`, or
`GITHUB_ACTIONS` is `"true"`. -/
def isCI (env : EnvVars) : Bool :=
  env "CI" == some "true" || env "CI" == some "1" || env "GITHUB_ACTIONS" == some "true"

/-- `resolveStrict(configStrict?)`: the explicit value if defined, else CI
auto-detection. -/
def resolveStrict (env : EnvVars) (configStrict : Option Bool) : Bool :=
  configStrict.getD (isCI env)

/-- `makeWarning(code, message, suggestion, file?)`. -/
def makeWarning (code message suggestion : String) (file : Option String) :
    ValidationWarning :=
  { code := code, message := message, file := file, suggestion := some suggestion }

/-- `formatSchemaErrors(error, filePath)`: the source wraps the whole formatted
parse error into a single `{path: filePath, message}` entry.  The
`ParseResult.ParseError` argument is modelled by its formatted message. -/
def formatSchemaErrors (message : String) (filePath : String) : List SchemaErrItem :=
  [{ path := filePath, message := message }]

/-- `readActionYml(path)`: missing file fails `ActionYmlMissing`; a parser
throw fails `ActionYmlSyntaxError`; a parsed value that is falsy or not of
JavaScript object type fails `ActionYmlSyntaxError("action.yml must be an
object")`. -/
def readActionYml (fs : Fs) (parseYaml : YamlParse) (path : String) :
    Except ActionYmlError Yaml :=
  match fs path with
  | none => .error (.missing path)
  | some content =>
    match parseYaml content with
    | .error msg => .error (.malformed path msg)
    | .ok parsed =>
      if !parsed.truthy || !parsed.isObjType then
        .error (.malformed path "action.yml must be an object")
      else
        .ok parsed

/-- `validateSchema(parsed, path)`: decode against the `ActionYml` schema and
wrap a failure as `ActionYmlSchemaError{path, formatSchemaErrors(...)}`. -/
def validateSchema (parsed : Yaml) (path : String) : Except ActionYmlError ActionYml :=
  match decodeActionYml parsed with
  | .error msg => .error (.schemaError path (formatSchemaErrors msg path))
  | .ok a => .ok a

/-- `checkRecommendations(content, filePath?)`: advisory warnings derived from
the raw parsed tree — missing branding (or icon/color), and missing
descriptions on declared inputs/outputs. -/
def checkRecommendations (content : Yaml) (filePath : Option String) :
    List ValidationWarning :=
  let brandingWarnings :=
    if !(content.fieldTruthy "branding") then
      [makeWarning "ACTION_YML_NO_BRANDING" "No branding configuration found"
        "Add branding.icon and branding.color for better marketplace visibility" filePath]
    else
      let branding := (content.getField "branding").getD .null
      (if !(branding.fieldTruthy "icon") then
        [makeWarning "ACTION_YML_NO_BRANDING_ICON" "Branding icon not specified"
          "Add branding.icon for better marketplace visibility" filePath]
      else []) ++
      (if !(branding.fieldTruthy "color") then
        [makeWarning "ACTION_YML_NO_BRANDING_COLOR" "Branding color not specified"
          "Add branding.color for better marketplace visibility" filePath]
      else [])
  let inputWarnings :=
    if content.fieldTruthy "inputs" then
      ((content.getField "inputs").getD .null).entriesOf.filterMap fun kv =>
        if !(kv.2.fieldTruthy "description") then
          some (makeWarning "ACTION_YML_INPUT_NO_DESCRIPTION"
            ("Input \x27" ++ kv.1 ++ "\x27 has no description")
            ("Add a description for the \x27" ++ kv.1 ++ "\x27 input") filePath)
        else none
    else []
  let outputWarnings :=
    if content.fieldTruthy "outputs" then
      ((content.getField "outputs").getD .null).entriesOf.filterMap fun kv =>
        if !(kv.2.fieldTruthy "description") then
          some (makeWarning "ACTION_YML_OUTPUT_NO_DESCRIPTION"
            ("Output \x27" ++ kv.1 ++ "\x27 has no description")
            ("Add a description for the \x27" ++ kv.1 ++ "\x27 output") filePath)
        else none
    else []
  brandingWarnings ++ inputWarnings ++ outputWarnings

/-- `validateActionYml(path)`: read and parse, schema-validate, then derive
recommendations from the raw tree. -/
def validateActionYml (fs : Fs) (parseYaml : YamlParse) (path : String) :
    Except ActionYmlError ActionYmlResult := do
  let parsed ← readActionYml fs parseYaml path
  let content ← validateSchema parsed path
  let warnings := checkRecommendations parsed (some path)
  .ok { valid := true, content := some content, errors := [], warnings := warnings }

/-- JavaScript truthiness of an optional string (`if (config.entries.pre)`):
defined and non-empty. -/
def truthyOptStr : Option String → Bool
  | some s => s != ""
  | none => false

/-- The `entriesConfig` object both orchestrators build from the resolved
configuration: `main` always, `pre`/`post` only when truthy. -/
def entriesConfigOf (config : Config) : EntriesArg :=
  { main := some config.entries.main
    pre := if truthyOptStr config.entries.pre then config.entries.pre else none
    post := if truthyOptStr config.entries.post then config.entries.post else none }

/-- `checkEntries(config, cwd)`: run entry detection and downgrade a
`MainEntryMissing` failure to a single reportable error item. -/
def checkEntries (fs : Fs) (config : Config) (cwd : String) :
    List ValidationErrorItem :=
  match detectEntries fs cwd (entriesConfigOf config) with
  | .error e =>
      [{ code := "MAIN_ENTRY_MISSING"
         message := "Main entry point not found: " ++ e.expectedPath
         file := some e.expectedPath
         suggestion := some "Create src/main.ts or specify a different path in config" }]
  | .ok _ => []

/-- The `{errors, warnings}` pair returned by `checkActionYml`. -/
structure CheckOutcome where
  errors : List ValidationErrorItem
  warnings : List ValidationWarning
deriving Repr, DecidableEq

/-- `checkActionYml(config, cwd)`: skipped entirely when
`config.validation.requireActionYml` is false; otherwise validates
`<cwd>/action.yml`, mapping `Missing` to one warning, a syntax error to one
error, a schema error to one error per collected entry, and a success to its
recommendation warnings. -/
def checkActionYml (fs : Fs) (parseYaml : YamlParse) (config : Config)
    (cwd : String) : CheckOutcome :=
  if !config.validation.requireActionYml then
    { errors := [], warnings := [] }
  else
    let actionYmlPath := resolveP cwd "action.yml"
    match validateActionYml fs parseYaml actionYmlPath with
    | .error (.missing _) =>
        { errors := []
          warnings := [{ code := "ACTION_YML_MISSING"
                         message := "action.yml not found"
                         file := some actionYmlPath
                         suggestion := some "Create action.yml to define your action metadata" }] }
    | .error (.malformed p msg) =>
        { errors := [{ code := "ACTION_YML_SYNTAX_ERROR", message := msg,
                       file := some p, suggestion := none }]
          warnings := [] }
    | .error (.schemaError p errs) =>
        { errors := errs.map fun se =>
            { code := "ACTION_YML_SCHEMA_ERROR", message := se.message,
              file := some p, suggestion := none }
          warnings := [] }
    | .ok res => { errors := [], warnings := res.warnings }

/-- The strict flag `validate` computes on entry:
`resolveStrict(options.strict ?? config.validation.strict)`. -/
def effectiveStrict (env : EnvVars) (config : Config) (options : ValidateOptions) : Bool :=
  resolveStrict env (options.strict.or config.validation.strict)

/-- `ValidationService.validate(config, options)`: runs `checkEntries` and
`checkActionYml`, combines their items, computes the verdict, and — only in
strict mode with warnings but no errors — fails with `ValidationFailed`. -/
def validate (fs : Fs) (parseYaml : YamlParse) (env : EnvVars)
    (procCwd : String) (config : Config) (options : ValidateOptions) :
    Except ValidationFailed ValidationResult :=
  let cwd := options.cwd.getD procCwd
  let strict := effectiveStrict env config options
  let entryErrors := checkEntries fs config cwd
  let ay := checkActionYml fs parseYaml config cwd
  let errors := entryErrors ++ ay.errors
  let warnings := ay.warnings
  let valid := errors.length == 0 && (!strict || warnings.length == 0)
  if strict && warnings.length > 0 && errors.length == 0 then
    .error { errorCount := 0, warningCount := warnings.length,
             message := "Warnings treated as errors in strict mode" }
  else
    .ok { valid := valid, errors := errors, warnings := warnings }

-- =============================================================================
-- Build service (src/services/build-live.ts)
-- =============================================================================

/-- Statistics for a single bundled entry (`BundleStatsSchema`).  Durations
are not modelled (wall-clock time): the field is carried but the claims never
constrain it. -/
structure BundleStats where
  entry : String
  size : Nat
  duration : Nat
  outputPath : String
deriving Repr, DecidableEq

/-- Result of bundling a single entry (`BundleResultSchema`). -/
structure BundleResult where
  success : Bool
  stats : Option BundleStats
  error : Option String
deriving Repr, DecidableEq

/-- Result of the complete build (`BuildResultSchema`). -/
structure BuildResult where
  success : Bool
  entries : List BundleResult
  duration : Nat
  error : Option String
deriving Repr, DecidableEq

/-- Options for the build (`BuildRunnerOptionsSchema`). -/
structure BuildRunnerOptions where
  cwd : Option String
  clean : Option Bool
deriving Repr, DecidableEq

/-- `cleanDirectory(dir)`: recursively remove the directory; a non-existent
directory is a no-op.  In this pure filesystem model removal cannot fail, so
the `CleanError` branch (an OS-level exception) is unreachable. -/
def cleanDirectory (dir : String) (fs : Fs) : Fs :=
  fun p => if p = dir ∨ (dir ++ "/").isPrefixOf p then none else fs p

/-- `writeFile(path, content)`: write (creating directories); in this pure
model the write cannot fail, so the `WriteError` branch is unreachable. -/
def writeFileFs (path content : String) (fs : Fs) : Fs :=
  fun p => if p = path then some content else fs p

/-- The external bundler step for one entry.  `bundleEntry(entry, config,
cwd)` invokes ncc and writes the bundle, map and assets; the whole step is
modelled as an opaque state transformer that either produces a `BundleResult`
or fails with a cause string (`BundleFailed.cause` / `WriteError.cause`),
with `config` and `cwd` fixed for the call. -/
structure BuildEnv where
  bundleE : DetectedEntry → Fs → (Except String BundleResult) × Fs

/-- The per-entry loop of `build`: each entry is attempted in order; a failed
step is captured as `{success: false, error: cause}` and does not abort the
remaining entries. -/
def runEntries (env : BuildEnv) : List DetectedEntry → Fs → (List BundleResult) × Fs
  | [], fs => ([], fs)
  | e :: rest, fs =>
    let step := env.bundleE e fs
    let br : BundleResult :=
      match step.1 with
      | .error cause => { success := false, stats := none, error := some cause }
      | .ok r => r
    let tail := runEntries env rest step.2
    (br :: tail.1, tail.2)

/-- `BuildService.build(config, options)`: detect entries (propagating
`MainEntryMissing`), optionally clean `dist`, bundle every entry, write the
`dist/package.json` marker, and aggregate.  The pair's second component is the
filesystem after the call; durations are not modelled and reported as 0. -/
def build (env : BuildEnv) (fs : Fs) (procCwd : String) (config : Config)
    (options : BuildRunnerOptions) :
    (Except MainEntryMissing BuildResult) × Fs :=
  let cwd := options.cwd.getD procCwd
  let shouldClean := options.clean.getD true
  match detectEntries fs cwd (entriesConfigOf config) with
  | .error e => (.error e, fs)
  | .ok entriesResult =>
    let fs1 := if shouldClean then cleanDirectory (resolveP cwd "dist") fs else fs
    let step := runEntries env entriesResult.entries fs1
    let entryResults := step.1
    let fs3 := writeFileFs (resolveP cwd "dist/package.json")
      "\x7b \"type\": \"module\" \x7d" step.2
    let success := entryResults.all (·.success)
    if !success then
      (.ok { success := success, entries := entryResults, duration := 0,
             error := some "One or more entries failed to build" }, fs3)
    else
      (.ok { success := success, entries := entryResults, duration := 0,
             error := none }, fs3)

-- =============================================================================
-- Auxiliary definitions for the claims
-- =============================================================================

/-- The value found at `runs.using` of a parsed tree, if any. -/
def getRunsUsing (t : Yaml) : Option Yaml :=
  (t.getField "runs").bind (fun r => r.getField "using")

/-- Specification-side definition (from the spec's words, not the source):
the number of field-level violations of a parsed tree, counted for the case
of several missing required top-level fields (`name`, `description`, `runs`
are the required keys of the manifest schema).  Used only to compare the
spec's "one entry per field-level violation" against the source's
`formatSchemaErrors`. -/
def specMissingRequiredCount (t : Yaml) : Nat :=
  (["name", "description", "runs"].filter (fun k => (t.getField k).isNone)).length

-- Concrete fixtures used by witness theorems.

/-- A filesystem with no files. -/
def fsEmpty : Fs := fun _ => none

/-- A filesystem holding only the conventional main entry under `/proj`. -/
def fsMainOnly : Fs := fun p => if p = "/proj/src/main.ts" then some "code" else none

/-- A filesystem holding all three conventional entries under `/proj`. -/
def fsAllEntries : Fs := fun p =>
  if p = "/proj/src/main.ts" ∨ p = "/proj/src/pre.ts" ∨ p = "/proj/src/post.ts" then
    some "code"
  else none

/-- A filesystem with the main entry and an `action.yml` under `/proj`. -/
def fsMainAndYml : Fs := fun p =>
  if p = "/proj/src/main.ts" ∨ p = "/proj/action.yml" then some "raw" else none

/-- An empty environment (no CI indicators). -/
def envNone : EnvVars := fun _ => none

/-- An environment with `CI=true`. -/
def envCITrue : EnvVars := fun k => if k = "CI" then some "true" else none

/-- A parser fixture for scenarios that never reach parsing. -/
def parseNone : YamlParse := fun _ => .error "not parsed"

/-- A parsed manifest whose `runs.using` is `"node20"` and which is otherwise
schema-valid. -/
def ymlBadUsing : Yaml :=
  .obj [("name", .str "t"), ("description", .str "d"),
        ("runs", .obj [("using", .str "node20"), ("main", .str "dist/main.js")])]

/-- A parser fixture returning `ymlBadUsing` for any input. -/
def parseBadUsing : YamlParse := fun _ => .ok ymlBadUsing

/-- The fully defaulted configuration. -/
def cfgDefault : Config := defineConfig ⟨none, none, none⟩

/-- A configuration with `validation.requireActionYml = false`. -/
def cfgNoYml : Config := defineConfig ⟨none, none, some ⟨some false, none, none⟩⟩

/-- A bundler environment in which every entry bundles successfully. -/
def envAllOk : BuildEnv :=
  ⟨fun _ f => (.ok { success := true, stats := none, error := none }, f)⟩

/-- A bundler environment in which the `pre` entry fails with cause `"boom"`
and the other entries succeed. -/
def envPreFails : BuildEnv :=
  ⟨fun e f =>
    if e.type = .pre then (.error "boom", f)
    else (.ok { success := true, stats := none, error := none }, f)⟩

-- =============================================================================
-- Helper lemmas
-- =============================================================================

theorem except_bind_ok {ε α β : Type} (x : Except ε α) (f : α → Except ε β) (b : β) :
    (x >>= f) = .ok b ↔ ∃ a, x = .ok a ∧ f a = .ok b := by
  cases x <;> simp [Bind.bind, Except.bind]

theorem validate_ok_of_errors_ne_nil (fs : Fs) (parse : YamlParse) (env : EnvVars)
    (procCwd : String) (config : Config) (opts : ValidateOptions)
    (h : checkEntries fs config (opts.cwd.getD procCwd)
      ++ (checkActionYml fs parse config (opts.cwd.getD procCwd)).errors ≠ []) :
    validate fs parse env procCwd config opts =
      .ok ⟨false,
           checkEntries fs config (opts.cwd.getD procCwd)
             ++ (checkActionYml fs parse config (opts.cwd.getD procCwd)).errors,
           (checkActionYml fs parse config (opts.cwd.getD procCwd)).warnings⟩ := by
  have hne : (checkEntries fs config (opts.cwd.getD procCwd)
      ++ (checkActionYml fs parse config (opts.cwd.getD procCwd)).errors).length ≠ 0 :=
    fun hh => h (List.length_eq_zero.mp hh)
  have hlen : ((checkEntries fs config (opts.cwd.getD procCwd)
      ++ (checkActionYml fs parse config (opts.cwd.getD procCwd)).errors).length == 0) = false :=
    beq_eq_false_iff_ne.mpr hne
  simp only [validate]
  rw [hlen]
  simp

theorem validate_error_of_strict_warn (fs : Fs) (parse : YamlParse) (env : EnvVars)
    (procCwd : String) (config : Config) (opts : ValidateOptions)
    (hstrict : effectiveStrict env config opts = true)
    (hE : checkEntries fs config (opts.cwd.getD procCwd)
      ++ (checkActionYml fs parse config (opts.cwd.getD procCwd)).errors = [])
    (hW : (checkActionYml fs parse config (opts.cwd.getD procCwd)).warnings ≠ []) :
    validate fs parse env procCwd config opts =
      .error ⟨0, (checkActionYml fs parse config (opts.cwd.getD procCwd)).warnings.length,
              "Warnings treated as errors in strict mode"⟩ := by
  have hWpos : 0 < (checkActionYml fs parse config (opts.cwd.getD procCwd)).warnings.length :=
    List.length_pos.mpr hW
  simp only [validate]
  rw [hE]
  simp [hstrict, hWpos]

theorem checkActionYml_error_codes (fs : Fs) (parse : YamlParse) (config : Config)
    (cwd : String) :
    ∀ it ∈ (checkActionYml fs parse config cwd).errors,
      it.code = "ACTION_YML_SYNTAX_ERROR" ∨ it.code = "ACTION_YML_SCHEMA_ERROR" := by
  intro it hit
  simp only [checkActionYml] at hit
  split at hit
  · simp at hit
  · split at hit
    · simp at hit
    · simp only [List.mem_singleton] at hit
      subst hit
      exact Or.inl rfl
    · simp only [List.mem_map] at hit
      obtain ⟨se, -, rfl⟩ := hit
      exact Or.inr rfl
    · simp at hit

-- =============================================================================
-- Claim theorems
-- =============================================================================

/-- C9: `resolve` is total on well-typed partial inputs (it never fails);
every field not set in the input resolves to its documented schema default
(`entries.main = "src/main.ts"`, `build.minify = true`, `build.target =
es2022`, `build.sourceMap = false`, `build.externals = []`, `build.quiet =
false`, `validation.requireActionYml = true`), and resolving the same input
twice yields structurally equal outputs. -/
theorem C9_resolve_defaults (i : ConfigInput) :
    resolve i = defineConfig i
  ∧ ((i.entries.getD ⟨none, none, none⟩).main = none →
      (resolve i).entries.main = "src/main.ts")
  ∧ ((i.build.getD ⟨none, none, none, none, none⟩).minify = none →
      (resolve i).build.minify = true)
  ∧ ((i.build.getD ⟨none, none, none, none, none⟩).target = none →
      (resolve i).build.target = .es2022)
  ∧ ((i.build.getD ⟨none, none, none, none, none⟩).sourceMap = none →
      (resolve i).build.sourceMap = false)
  ∧ ((i.build.getD ⟨none, none, none, none, none⟩).externals = none →
      (resolve i).build.externals = [])
  ∧ ((i.build.getD ⟨none, none, none, none, none⟩).quiet = none →
      (resolve i).build.quiet = false)
  ∧ ((i.validation.getD ⟨none, none, none⟩).requireActionYml = none →
      (resolve i).validation.requireActionYml = true)
  ∧ resolve i = resolve i := by
  refine ⟨rfl, ?_, ?_, ?_, ?_, ?_, ?_, ?_, rfl⟩ <;>
    · intro h
      simp [resolve, defineConfig, h]

/-- C9 witness: the empty input resolves to all documented defaults. -/
theorem C9_witness :
    (resolve ⟨none, none, none⟩).entries.main = "src/main.ts"
  ∧ (resolve ⟨none, none, none⟩).build.minify = true
  ∧ (resolve ⟨none, none, none⟩).build.target = .es2022
  ∧ (resolve ⟨none, none, none⟩).build.sourceMap = false
  ∧ (resolve ⟨none, none, none⟩).build.externals = []
  ∧ (resolve ⟨none, none, none⟩).build.quiet = false
  ∧ (resolve ⟨none, none, none⟩).validation.requireActionYml = true := by
  obtain ⟨-, h1, h2, h3, h4, h5, h6, h7, -⟩ := C9_resolve_defaults ⟨none, none, none⟩
  exact ⟨h1 rfl, h2 rfl, h3 rfl, h4 rfl, h5 rfl, h6 rfl, h7 rfl⟩

/-- C2: the strict flag `validate` computes is the first defined value among
`options.strict`, `config.validation.strict` and CI auto-detection; CI
auto-detection holds exactly when `CI` is `"true"`/`"1"` or `GITHUB_ACTIONS`
is `"true"`; and an explicit `strict = false` in options or config suppresses
CI auto-detection (in particular `validate` can then never fail with
`ValidationFailed`). -/
theorem C2_strict_resolution (env : EnvVars) (config : Config) (opts : ValidateOptions) :
    effectiveStrict env config opts
      = opts.strict.getD (config.validation.strict.getD (isCI env))
  ∧ (isCI env = true ↔
      (env "CI" = some "true" ∨ env "CI" = some "1" ∨ env "GITHUB_ACTIONS" = some "true"))
  ∧ (opts.strict = some false → effectiveStrict env config opts = false)
  ∧ (opts.strict = none → config.validation.strict = some false →
      effectiveStrict env config opts = false)
  ∧ (opts.strict = none → config.validation.strict = none →
      effectiveStrict env config opts = isCI env)
  ∧ (opts.strict = some false → ∀ (fs : Fs) (parse : YamlParse) (procCwd : String)
      (vf : ValidationFailed), validate fs parse env procCwd config opts ≠ .error vf) := by
  refine ⟨?_, ?_, ?_, ?_, ?_, ?_⟩
  · cases h : opts.strict <;> cases h2 : config.validation.strict <;>
      simp [effectiveStrict, resolveStrict, Option.or, h, h2]
  · simp [isCI, or_assoc]
  · intro h
    simp [effectiveStrict, resolveStrict, Option.or, h]
  · intro h h2
    simp [effectiveStrict, resolveStrict, Option.or, h, h2]
  · intro h h2
    simp [effectiveStrict, resolveStrict, Option.or, h, h2]
  · intro h fs parse procCwd vf
    simp [validate, effectiveStrict, resolveStrict, Option.or, h]

/-- C2 witness: with `CI=true` in the environment but `options.strict = false`,
CI auto-detection is recognised yet suppressed. -/
theorem C2_witness :
    isCI envCITrue = true
  ∧ effectiveStrict envCITrue cfgDefault ⟨none, some false⟩ = false := by
  obtain ⟨-, hiff, h3, -, -, -⟩ := C2_strict_resolution envCITrue cfgDefault ⟨none, some false⟩
  exact ⟨hiff.mpr (Or.inl rfl), h3 rfl⟩

/-- C6: `detectEntries` fails with `MainEntryMissing{expectedPath, cwd}`
exactly when the (overridden or default) main entry file is missing; on
success the optional roles are included iff their files exist, so only the
main file present gives exactly one `main` entry, and all three files present
give exactly the three entries `main`, `pre`, `post` with outputs
`dist/<role>.js`. -/
theorem C6_detectEntries_spec (fs : Fs) (cwd : String) (es : EntriesArg) :
    (existsF fs (resolveP cwd (es.main.getD "src/main.ts")) = false →
      detectEntries fs cwd es = .error ⟨es.main.getD "src/main.ts", cwd⟩)
  ∧ (detectEntries fs cwd es = .error ⟨es.main.getD "src/main.ts", cwd⟩ →
      existsF fs (resolveP cwd (es.main.getD "src/main.ts")) = false)
  ∧ (existsF fs (resolveP cwd (es.main.getD "src/main.ts")) = true →
     existsF fs (resolveP cwd (es.pre.getD "src/pre.ts")) = false →
     existsF fs (resolveP cwd (es.post.getD "src/post.ts")) = false →
      detectEntries fs cwd es = .ok ⟨true,
        [⟨.main, resolveP cwd (es.main.getD "src/main.ts"), "dist/main.js"⟩]⟩)
  ∧ (existsF fs (resolveP cwd (es.main.getD "src/main.ts")) = true →
     existsF fs (resolveP cwd (es.pre.getD "src/pre.ts")) = true →
     existsF fs (resolveP cwd (es.post.getD "src/post.ts")) = true →
      detectEntries fs cwd es = .ok ⟨true,
        [⟨.main, resolveP cwd (es.main.getD "src/main.ts"), "dist/main.js"⟩,
         ⟨.pre, resolveP cwd (es.pre.getD "src/pre.ts"), "dist/pre.js"⟩,
         ⟨.post, resolveP cwd (es.post.getD "src/post.ts"), "dist/post.js"⟩]⟩)
  ∧ (existsF fs (resolveP cwd (es.main.getD "src/main.ts")) = true →
     ∀ res, detectEntries fs cwd es = .ok res →
      (((∃ d ∈ res.entries, d.type = .pre) ↔
          existsF fs (resolveP cwd (es.pre.getD "src/pre.ts")) = true)
       ∧ ((∃ d ∈ res.entries, d.type = .post) ↔
          existsF fs (resolveP cwd (es.post.getD "src/post.ts")) = true))) := by
  refine ⟨?_, ?_, ?_, ?_, ?_⟩
  · intro h
    simp [detectEntries, defaultEntryPath, h]
  · intro h
    by_contra hc
    rw [Bool.not_eq_false] at hc
    simp [detectEntries, defaultEntryPath, hc] at h
  · intro h1 h2 h3
    simp [detectEntries, detectOptionalEntry, defaultEntryPath, h1, h2, h3]
  · intro h1 h2 h3
    simp [detectEntries, detectOptionalEntry, defaultEntryPath, h1, h2, h3]
    constructor <;> rfl
  · intro h1 res hres
    simp [detectEntries, defaultEntryPath, h1] at hres
    cases hp : existsF fs (resolveP cwd (es.pre.getD "src/pre.ts")) <;>
      cases hq : existsF fs (resolveP cwd (es.post.getD "src/post.ts")) <;>
        simp [detectOptionalEntry, defaultEntryPath, hp, hq] at hres <;>
          simp [← hres]

/-- C6 witness: no files → `MainEntryMissing`; only main → exactly one entry;
all three → exactly the three tagged entries. -/
theorem C6_witness :
    detectEntries fsEmpty "/proj" ⟨none, none, none⟩ = .error ⟨"src/main.ts", "/proj"⟩
  ∧ detectEntries fsMainOnly "/proj" ⟨none, none, none⟩ =
      .ok ⟨true, [⟨.main, "/proj/src/main.ts", "dist/main.js"⟩]⟩
  ∧ detectEntries fsAllEntries "/proj" ⟨none, none, none⟩ =
      .ok ⟨true, [⟨.main, "/proj/src/main.ts", "dist/main.js"⟩,
                  ⟨.pre, "/proj/src/pre.ts", "dist/pre.js"⟩,
                  ⟨.post, "/proj/src/post.ts", "dist/post.js"⟩]⟩ :=
  ⟨(C6_detectEntries_spec fsEmpty "/proj" ⟨none, none, none⟩).1 (by decide),
   (C6_detectEntries_spec fsMainOnly "/proj" ⟨none, none, none⟩).2.2.1
     (by decide) (by decide) (by decide),
   (C6_detectEntries_spec fsAllEntries "/proj" ⟨none, none, none⟩).2.2.2.1
     (by decide) (by decide) (by decide)⟩

/-- C10: when entry detection fails, `build` fails with the `MainEntryMissing`
error and the filesystem is returned unchanged — entry detection runs before
the optional clean of the output directory and before any write, even when the
clean option is true. -/
theorem C10_build_no_mutation_on_main_missing (env : BuildEnv) (fs : Fs)
    (procCwd : String) (config : Config) (opts : BuildRunnerOptions)
    (e : MainEntryMissing)
    (hdet : detectEntries fs (opts.cwd.getD procCwd) (entriesConfigOf config) = .error e) :
    build env fs procCwd config opts = (.error e, fs) := by
  simp [build, hdet]

/-- C10 witness: a concrete build with `clean = true` over an empty project
fails with `MainEntryMissing` and leaves the filesystem untouched. -/
theorem C10_witness :
    build envAllOk fsEmpty "/x" cfgDefault ⟨some "/proj", some true⟩
      = (.error ⟨"src/main.ts", "/proj"⟩, fsEmpty) :=
  C10_build_no_mutation_on_main_missing envAllOk fsEmpty "/x" cfgDefault
    ⟨some "/proj", some true⟩ ⟨"src/main.ts", "/proj"⟩ rfl

/-- C1: when strict mode is active and validation produces zero error items
and at least one warning item, `validate` fails with `ValidationFailed`
carrying `errorCount = 0` and the warning count, rather than returning a
result; whereas whenever at least one error item is produced (strict or not),
`validate` returns a `ValidationResult` with `valid = false` instead of
failing. -/
theorem C1_strict_warning_asymmetry (fs : Fs) (parse : YamlParse) (env : EnvVars)
    (procCwd : String) (config : Config) (opts : ValidateOptions) :
    (effectiveStrict env config opts = true →
     checkEntries fs config (opts.cwd.getD procCwd)
       ++ (checkActionYml fs parse config (opts.cwd.getD procCwd)).errors = [] →
     (checkActionYml fs parse config (opts.cwd.getD procCwd)).warnings ≠ [] →
      validate fs parse env procCwd config opts =
        .error ⟨0, (checkActionYml fs parse config (opts.cwd.getD procCwd)).warnings.length,
                "Warnings treated as errors in strict mode"⟩)
  ∧ (checkEntries fs config (opts.cwd.getD procCwd)
       ++ (checkActionYml fs parse config (opts.cwd.getD procCwd)).errors ≠ [] →
      validate fs parse env procCwd config opts =
        .ok ⟨false,
             checkEntries fs config (opts.cwd.getD procCwd)
               ++ (checkActionYml fs parse config (opts.cwd.getD procCwd)).errors,
             (checkActionYml fs parse config (opts.cwd.getD procCwd)).warnings⟩) :=
  ⟨validate_error_of_strict_warn fs parse env procCwd config opts,
   validate_ok_of_errors_ne_nil fs parse env procCwd config opts⟩

/-- C1 witness: with only the main entry present and no manifest, strict mode
turns the single `ACTION_YML_MISSING` warning into a `ValidationFailed{0, 1}`
failure; with the main entry also missing, the same strict call returns a
result with `valid = false` instead. -/
theorem C1_witness :
    validate fsMainOnly parseNone envNone "/x" cfgDefault ⟨some "/proj", some true⟩
      = .error ⟨0, 1, "Warnings treated as errors in strict mode"⟩
  ∧ validate fsEmpty parseNone envNone "/x" cfgDefault ⟨some "/proj", some true⟩
      = .ok ⟨false,
             [⟨"MAIN_ENTRY_MISSING", "Main entry point not found: src/main.ts",
               some "src/main.ts",
               some "Create src/main.ts or specify a different path in config"⟩],
             [⟨"ACTION_YML_MISSING", "action.yml not found", some "/proj/action.yml",
               some "Create action.yml to define your action metadata"⟩]⟩ :=
  ⟨(C1_strict_warning_asymmetry fsMainOnly parseNone envNone "/x" cfgDefault
      ⟨some "/proj", some true⟩).1 (by decide) (by decide) (by decide),
   (C1_strict_warning_asymmetry fsEmpty parseNone envNone "/x" cfgDefault
      ⟨some "/proj", some true⟩).2 (by decide)⟩

/-- C4: when the primary entry file is missing, `build` fails with the typed
`MainEntryMissing` failure (no `BuildResult` is produced), while `validate`
never propagates it and instead returns a `ValidationResult` containing
exactly one error item with code `MAIN_ENTRY_MISSING`. -/
theorem C4_entry_missing_divergence (benv : BuildEnv) (fs : Fs) (parse : YamlParse)
    (env : EnvVars) (procCwd cwd : String) (config : Config)
    (clean strictOpt : Option Bool) (e : MainEntryMissing)
    (hdet : detectEntries fs cwd (entriesConfigOf config) = .error e) :
    build benv fs procCwd config ⟨some cwd, clean⟩ = (.error e, fs)
  ∧ ∃ r, validate fs parse env procCwd config ⟨some cwd, strictOpt⟩ = .ok r
      ∧ r.valid = false
      ∧ (r.errors.filter (fun it => it.code == "MAIN_ENTRY_MISSING")).length = 1 := by
  have hcheck : checkEntries fs config cwd =
      [⟨"MAIN_ENTRY_MISSING", "Main entry point not found: " ++ e.expectedPath,
        some e.expectedPath,
        some "Create src/main.ts or specify a different path in config"⟩] := by
    simp [checkEntries, hdet]
  constructor
  · simp [build, hdet]
  · have hE : checkEntries fs config cwd
        ++ (checkActionYml fs parse config cwd).errors ≠ [] := by
      rw [hcheck]
      simp
    refine ⟨_, validate_ok_of_errors_ne_nil fs parse env procCwd config
      ⟨some cwd, strictOpt⟩ hE, rfl, ?_⟩
    show ((checkEntries fs config cwd ++ (checkActionYml fs parse config cwd).errors).filter
      (fun it => it.code == "MAIN_ENTRY_MISSING")).length = 1
    rw [List.filter_append, hcheck]
    have hrest : ((checkActionYml fs parse config cwd).errors.filter
        (fun it => it.code == "MAIN_ENTRY_MISSING")) = [] := by
      rw [List.filter_eq_nil_iff]
      intro it hit
      rcases checkActionYml_error_codes fs parse config cwd it hit with h | h <;>
        simp [h]
    rw [hrest]
    simp

/-- C4 witness: a concrete project with no files — `build` fails with
`MainEntryMissing`, `validate` returns an invalid result carrying exactly one
`MAIN_ENTRY_MISSING` error item. -/
theorem C4_witness :
    build envAllOk fsEmpty "/y" cfgDefault ⟨some "/proj", some false⟩
      = (.error ⟨"src/main.ts", "/proj"⟩, fsEmpty)
  ∧ ∃ r, validate fsEmpty parseNone envNone "/y" cfgDefault ⟨some "/proj", some false⟩ = .ok r
      ∧ r.valid = false
      ∧ (r.errors.filter (fun it => it.code == "MAIN_ENTRY_MISSING")).length = 1 :=
  C4_entry_missing_divergence envAllOk fsEmpty parseNone envNone "/y" "/proj" cfgDefault
    (some false) (some false) ⟨"src/main.ts", "/proj"⟩ rfl

/-- C7: when `config.validation.requireActionYml` is false, manifest
validation contributes no errors and no warnings (and the `validate` result
carries only entry-check errors and no warnings); otherwise it runs at
`<cwd>/action.yml`, where a missing manifest contributes exactly one
`ACTION_YML_MISSING` warning and never an error, a syntax failure (parser
throw or non-object document) contributes exactly one error item, and a
schema failure contributes one error item per collected schema violation. -/
theorem C7_manifest_validation_policy (fs : Fs) (parse : YamlParse) (config : Config)
    (cwd : String) :
    (config.validation.requireActionYml = false →
      checkActionYml fs parse config cwd = ⟨[], []⟩
      ∧ ∀ (env : EnvVars) (procCwd : String) (strictOpt : Option Bool),
          validate fs parse env procCwd config ⟨some cwd, strictOpt⟩ =
            .ok ⟨((checkEntries fs config cwd).length == 0),
                 checkEntries fs config cwd, []⟩)
  ∧ (config.validation.requireActionYml = true →
     fs (resolveP cwd "action.yml") = none →
      checkActionYml fs parse config cwd =
        ⟨[], [⟨"ACTION_YML_MISSING", "action.yml not found",
               some (resolveP cwd "action.yml"),
               some "Create action.yml to define your action metadata"⟩]⟩)
  ∧ (config.validation.requireActionYml = true →
     ∀ content msg, fs (resolveP cwd "action.yml") = some content →
       parse content = .error msg →
        checkActionYml fs parse config cwd =
          ⟨[⟨"ACTION_YML_SYNTAX_ERROR", msg, some (resolveP cwd "action.yml"), none⟩], []⟩)
  ∧ (config.validation.requireActionYml = true →
     ∀ content t, fs (resolveP cwd "action.yml") = some content →
       parse content = .ok t → (!t.truthy || !t.isObjType) = true →
        checkActionYml fs parse config cwd =
          ⟨[⟨"ACTION_YML_SYNTAX_ERROR", "action.yml must be an object",
             some (resolveP cwd "action.yml"), none⟩], []⟩)
  ∧ (config.validation.requireActionYml = true →
     ∀ content t msg, fs (resolveP cwd "action.yml") = some content →
       parse content = .ok t → (!t.truthy || !t.isObjType) = false →
       decodeActionYml t = .error msg →
        checkActionYml fs parse config cwd =
          ⟨(formatSchemaErrors msg (resolveP cwd "action.yml")).map (fun se =>
              ⟨"ACTION_YML_SCHEMA_ERROR", se.message, some (resolveP cwd "action.yml"), none⟩),
           []⟩
        ∧ (checkActionYml fs parse config cwd).errors.length
            = (formatSchemaErrors msg (resolveP cwd "action.yml")).length) := by
  refine ⟨?_, ?_, ?_, ?_, ?_⟩
  · intro hreq
    have hchk : checkActionYml fs parse config cwd = ⟨[], []⟩ := by
      simp [checkActionYml, hreq]
    refine ⟨hchk, ?_⟩
    intro env procCwd strictOpt
    simp [validate, hchk]
  · intro hreq hfs
    simp [checkActionYml, hreq, validateActionYml, readActionYml, hfs,
      Bind.bind, Except.bind]
  · intro hreq content msg hfs hparse
    simp [checkActionYml, hreq, validateActionYml, readActionYml, hfs, hparse,
      Bind.bind, Except.bind]
  · intro hreq content t hfs hparse hguard
    simp [checkActionYml, hreq, validateActionYml, readActionYml, hfs, hparse,
      hguard, Bind.bind, Except.bind]
  · intro hreq content t msg hfs hparse hguard hdec
    have h1 : checkActionYml fs parse config cwd =
        ⟨(formatSchemaErrors msg (resolveP cwd "action.yml")).map (fun se =>
            ⟨"ACTION_YML_SCHEMA_ERROR", se.message, some (resolveP cwd "action.yml"), none⟩),
         []⟩ := by
      simp [checkActionYml, hreq, validateActionYml, readActionYml, validateSchema,
        hfs, hparse, hguard, hdec, formatSchemaErrors, Bind.bind, Except.bind]
    refine ⟨h1, ?_⟩
    rw [h1]
    simp

/-- C7 witness: requireActionYml off → nothing from the manifest source;
missing manifest → exactly one `ACTION_YML_MISSING` warning; parser throw →
exactly one syntax error item. -/
theorem C7_witness :
    checkActionYml fsMainAndYml parseNone cfgNoYml "/proj" = ⟨[], []⟩
  ∧ checkActionYml fsMainOnly parseNone cfgDefault "/proj" =
      ⟨[], [⟨"ACTION_YML_MISSING", "action.yml not found", some "/proj/action.yml",
             some "Create action.yml to define your action metadata"⟩]⟩
  ∧ checkActionYml fsMainAndYml parseNone cfgDefault "/proj" =
      ⟨[⟨"ACTION_YML_SYNTAX_ERROR", "not parsed", some "/proj/action.yml", none⟩], []⟩ :=
  ⟨((C7_manifest_validation_policy fsMainAndYml parseNone cfgNoYml "/proj").1 rfl).1,
   (C7_manifest_validation_policy fsMainOnly parseNone cfgDefault "/proj").2.1 rfl rfl,
   (C7_manifest_validation_policy fsMainAndYml parseNone cfgDefault "/proj").2.2.1 rfl
     "raw" "not parsed" rfl rfl⟩

theorem checkUsing_ok_iff (y : Yaml) :
    checkUsing y = .ok () ↔ y.getField "using" = some (.str "node24") := by
  rcases h : y.getField "using" with _ | v
  · simp [checkUsing, h]
  · cases v with
    | str s => by_cases hs : s = "node24" <;> simp [checkUsing, h, hs]
    | null => simp [checkUsing, h]
    | bool b => simp [checkUsing, h]
    | arr items => simp [checkUsing, h]
    | obj fields => simp [checkUsing, h]

theorem decodeRuns_using (y : Yaml) (r : Runs) (h : decodeRuns y = .ok r) :
    y.getField "using" = some (.str "node24") := by
  cases y with
  | obj fields =>
      simp only [decodeRuns] at h
      obtain ⟨u, hu, -⟩ := (except_bind_ok _ _ _).mp h
      cases u
      exact (checkUsing_ok_iff _).mp hu
  | null => simp [decodeRuns] at h
  | bool b => simp [decodeRuns] at h
  | str s => simp [decodeRuns] at h
  | arr items => simp [decodeRuns] at h

theorem decodeActionYml_using (t : Yaml) (a : ActionYml)
    (h : decodeActionYml t = .ok a) :
    getRunsUsing t = some (.str "node24") := by
  cases t with
  | obj fields =>
      simp only [decodeActionYml] at h
      obtain ⟨name, -, h⟩ := (except_bind_ok _ _ _).mp h
      obtain ⟨desc, -, h⟩ := (except_bind_ok _ _ _).mp h
      obtain ⟨author, -, h⟩ := (except_bind_ok _ _ _).mp h
      obtain ⟨inputs, -, h⟩ := (except_bind_ok _ _ _).mp h
      obtain ⟨outputs, -, h⟩ := (except_bind_ok _ _ _).mp h
      obtain ⟨runs, hruns, h⟩ := (except_bind_ok _ _ _).mp h
      rcases hr : (Yaml.obj fields).getField "runs" with _ | v
      · rw [hr] at hruns
        simp at hruns
      · rw [hr] at hruns
        have hv := decodeRuns_using v runs hruns
        simp [getRunsUsing, hr, hv]
  | null => simp [decodeActionYml] at h
  | bool b => simp [decodeActionYml] at h
  | str s => simp [decodeActionYml] at h
  | arr items => simp [decodeActionYml] at h

/-- C3: a parsed manifest whose `runs.using` is anything other than the
literal `"node24"` always fails schema validation with a schema error (never
a warning), regardless of the other fields; end to end, `validate` over such
a present, parseable manifest object returns `valid = false` with an
`ACTION_YML_SCHEMA_ERROR` error item and no warnings. -/
theorem C3_runs_using_literal (t : Yaml) (path : String) (fs : Fs) (parse : YamlParse)
    (env : EnvVars) (procCwd : String) (config : Config) (opts : ValidateOptions)
    (content : String) :
    (getRunsUsing t ≠ some (.str "node24") →
      ∃ msg, validateSchema t path = .error (.schemaError path [⟨path, msg⟩]))
  ∧ (getRunsUsing t ≠ some (.str "node24") →
     (∃ fl, t = Yaml.obj fl) →
     config.validation.requireActionYml = true →
     fs (resolveP (opts.cwd.getD procCwd) "action.yml") = some content →
     parse content = .ok t →
      ∃ r, validate fs parse env procCwd config opts = .ok r
        ∧ r.valid = false
        ∧ (∃ it ∈ r.errors, it.code = "ACTION_YML_SCHEMA_ERROR")
        ∧ r.warnings = []) := by
  constructor
  · intro hbad
    cases hd : decodeActionYml t with
    | ok a => exact absurd (decodeActionYml_using t a hd) hbad
    | error m => exact ⟨m, by simp [validateSchema, hd, formatSchemaErrors]⟩
  · intro hbad hobj hreq hfs hparse
    obtain ⟨fl, rfl⟩ := hobj
    cases hd : decodeActionYml (Yaml.obj fl) with
    | ok a => exact absurd (decodeActionYml_using _ a hd) hbad
    | error m =>
      have hchk : checkActionYml fs parse config (opts.cwd.getD procCwd) =
          ⟨[⟨"ACTION_YML_SCHEMA_ERROR", m,
             some (resolveP (opts.cwd.getD procCwd) "action.yml"), none⟩], []⟩ := by
        simp [checkActionYml, hreq, validateActionYml, readActionYml, validateSchema,
          hfs, hparse, hd, formatSchemaErrors, Yaml.truthy, Yaml.isObjType,
          Bind.bind, Except.bind]
      have hE : checkEntries fs config (opts.cwd.getD procCwd) ++
          (checkActionYml fs parse config (opts.cwd.getD procCwd)).errors ≠ [] := by
        rw [hchk]
        simp
      refine ⟨_, validate_ok_of_errors_ne_nil fs parse env procCwd config opts hE,
        rfl, ?_, ?_⟩
      · rw [hchk]
        exact ⟨_, List.mem_append_right _ (List.mem_singleton_self _), rfl⟩
      · rw [hchk]

/-- C3 witness: a manifest with `runs.using: "node20"` fails schema
validation, and a project carrying it validates to `valid = false` with a
schema error item. -/
theorem C3_witness :
    (∃ msg, validateSchema ymlBadUsing "action.yml" =
      .error (.schemaError "action.yml" [⟨"action.yml", msg⟩]))
  ∧ (∃ r, validate fsMainAndYml parseBadUsing envNone "/x" cfgDefault
        ⟨some "/proj", some false⟩ = .ok r
      ∧ r.valid = false
      ∧ (∃ it ∈ r.errors, it.code = "ACTION_YML_SCHEMA_ERROR")
      ∧ r.warnings = []) := by
  have hbad : getRunsUsing ymlBadUsing ≠ some (.str "node24") := by
    intro hc
    have h20 : getRunsUsing ymlBadUsing = some (.str "node20") := rfl
    rw [h20] at hc
    injection hc with h1
    injection h1 with h2
    exact absurd h2 (by decide)
  have h := C3_runs_using_literal ymlBadUsing "action.yml" fsMainAndYml parseBadUsing
    envNone "/x" cfgDefault ⟨some "/proj", some false⟩ "raw"
  exact ⟨h.1 hbad, h.2 hbad ⟨_, rfl⟩ rfl rfl rfl⟩

/-- C5 counterexample: a present manifest parsing to the empty object has
three field-level violations (missing `name`, `description` and `runs`), yet
`ActionYmlSchemaError.errors` holds exactly one entry — not one entry per
violation as the claim states. -/
theorem C5_counterexample :
    validateSchema (Yaml.obj []) "action.yml" =
      .error (.schemaError "action.yml" [⟨"action.yml", "is missing: name"⟩])
  ∧ specMissingRequiredCount (Yaml.obj []) = 3
  ∧ ¬ ([(⟨"action.yml", "is missing: name"⟩ : SchemaErrItem)].length
        = specMissingRequiredCount (Yaml.obj [])) :=
  ⟨rfl, rfl, by decide⟩

/-- C5 (amended): for every parsed manifest tree that fails schema
validation, `ActionYmlSchemaError.errors` contains exactly one entry; its
`path` is the manifest file path and its message is the single formatted
report of the decode failure — violations are not enumerated one entry per
field. -/
theorem C5_amended_single_entry (t : Yaml) (path p : String) (errs : List SchemaErrItem)
    (h : validateSchema t path = .error (.schemaError p errs)) :
    p = path ∧ errs.length = 1 ∧ ∀ it ∈ errs, it.path = path := by
  unfold validateSchema at h
  cases hd : decodeActionYml t with
  | ok a =>
      rw [hd] at h
      simp at h
  | error m =>
      rw [hd] at h
      simp only [formatSchemaErrors] at h
      injection h with h3
      injection h3 with h4 h5
      subst h4
      subst h5
      refine ⟨rfl, rfl, ?_⟩
      intro it hit
      simp at hit
      rw [hit]

/-- C5 witness: the amended statement applied to the empty-object manifest. -/
theorem C5_witness :
    ("action.yml" : String) = "action.yml"
  ∧ ([(⟨"action.yml", "is missing: name"⟩ : SchemaErrItem)]).length = 1
  ∧ ∀ it ∈ [(⟨"action.yml", "is missing: name"⟩ : SchemaErrItem)], it.path = "action.yml" :=
  C5_amended_single_entry (Yaml.obj []) "action.yml" "action.yml"
    [⟨"action.yml", "is missing: name"⟩] rfl

theorem runEntries_length (env : BuildEnv) (l : List DetectedEntry) (fs : Fs) :
    (runEntries env l fs).1.length = l.length := by
  induction l generalizing fs with
  | nil => rfl
  | cons e rest ih => simp [runEntries, ih]

theorem runEntries_failed_has_cause (env : BuildEnv)
    (henv : ∀ e g r, (env.bundleE e g).1 = .ok r → r.success = true) :
    ∀ (l : List DetectedEntry) (fs : Fs), ∀ b ∈ (runEntries env l fs).1,
      b.success = false → ∃ c, b.error = some c := by
  intro l
  induction l with
  | nil =>
      intro fs b hb
      simp [runEntries] at hb
  | cons e rest ih =>
      intro fs b hb hbf
      simp only [runEntries] at hb
      rcases List.mem_cons.mp hb with hb1 | hb2
      · cases hs : (env.bundleE e fs).1 with
        | error c =>
            rw [hs] at hb1
            exact ⟨c, by rw [hb1]⟩
        | ok r =>
            rw [hs] at hb1
            rw [hb1] at hbf
            have hb2 : r.success = false := hbf
            exact absurd (henv e fs r hs) (by simp [hb2])
      · exact ih (env.bundleE e fs).2 b hb2 hbf

theorem build_ok_shape (env : BuildEnv) (fs : Fs) (procCwd : String) (config : Config)
    (opts : BuildRunnerOptions) (dres : DetectEntriesResult)
    (hdet : detectEntries fs (opts.cwd.getD procCwd) (entriesConfigOf config) = .ok dres) :
    ∃ r, (build env fs procCwd config opts).1 = .ok r
      ∧ r.entries = (runEntries env dres.entries
          (if opts.clean.getD true then
            cleanDirectory (resolveP (opts.cwd.getD procCwd) "dist") fs else fs)).1
      ∧ r.success = r.entries.all (·.success) := by
  cases hsuc : ((runEntries env dres.entries
      (if opts.clean.getD true then
        cleanDirectory (resolveP (opts.cwd.getD procCwd) "dist") fs else fs)).1.all
        (·.success)) with
  | true =>
      refine ⟨⟨true, (runEntries env dres.entries
        (if opts.clean.getD true then
          cleanDirectory (resolveP (opts.cwd.getD procCwd) "dist") fs else fs)).1,
        0, none⟩, ?_, rfl, ?_⟩
      · simp [build, hdet, hsuc]
      · simp [hsuc]
  | false =>
      refine ⟨⟨false, (runEntries env dres.entries
        (if opts.clean.getD true then
          cleanDirectory (resolveP (opts.cwd.getD procCwd) "dist") fs else fs)).1,
        0, some "One or more entries failed to build"⟩, ?_, rfl, ?_⟩
      · simp [build, hdet, hsuc]
      · simp [hsuc]

/-- C8: when entry detection succeeds with `n` entries, every entry is
attempted regardless of earlier failures: `build` returns a `BuildResult`
whose `entries` list has length exactly `n`, whose `success` is true iff every
per-entry `BundleResult.success` is true, and in which every failed entry
carries its cause string. -/
theorem C8_build_all_entries_attempted (env : BuildEnv) (fs : Fs) (procCwd : String)
    (config : Config) (opts : BuildRunnerOptions) (dres : DetectEntriesResult)
    (hdet : detectEntries fs (opts.cwd.getD procCwd) (entriesConfigOf config) = .ok dres)
    (henv : ∀ e g r, (env.bundleE e g).1 = .ok r → r.success = true) :
    ∃ r, (build env fs procCwd config opts).1 = .ok r
      ∧ r.entries.length = dres.entries.length
      ∧ (r.success = true ↔ ∀ b ∈ r.entries, b.success = true)
      ∧ ∀ b ∈ r.entries, b.success = false → ∃ c, b.error = some c := by
  obtain ⟨r, hok, hent, hsucc⟩ := build_ok_shape env fs procCwd config opts dres hdet
  refine ⟨r, hok, ?_, ?_, ?_⟩
  · rw [hent, runEntries_length]
  · rw [hsucc]
    simp [List.all_eq_true]
  · intro b hb hbf
    rw [hent] at hb
    exact runEntries_failed_has_cause env henv dres.entries _ b hb hbf

/-- C8 witness: three detected entries, the `pre` bundling fails with cause
`"boom"`; all three are attempted and the aggregate result reflects the
failure. -/
theorem C8_witness :
    ∃ r, (build envPreFails fsAllEntries "/x" cfgDefault ⟨some "/proj", some true⟩).1 = .ok r
      ∧ r.entries.length = 3
      ∧ (r.success = true ↔ ∀ b ∈ r.entries, b.success = true)
      ∧ ∀ b ∈ r.entries, b.success = false → ∃ c, b.error = some c :=
  C8_build_all_entries_attempted envPreFails fsAllEntries "/x" cfgDefault
    ⟨some "/proj", some true⟩
    ⟨true, [⟨.main, "/proj/src/main.ts", "dist/main.js"⟩,
            ⟨.pre, "/proj/src/pre.ts", "dist/pre.js"⟩,
            ⟨.post, "/proj/src/post.ts", "dist/post.js"⟩]⟩
    rfl
    (by
      intro e g r h
      by_cases ht : e.type = .pre
      · simp [envPreFails, ht] at h
      · simp [envPreFails, ht] at h
        rw [← h])

end GithubActionBuilder
